import Mathlib

/-
Verification of the arena-card-generator pipeline.

The development shallowly embeds the two Python source files
(process_arena_data.py and generate_typst.py).  Python strings are
modelled as Lean Strings; the handful of str methods the sources use
(strip, split, startswith, replace, join, slicing) are re-implemented
below over the underlying Char lists with structural recursion, so that
every definition evaluates inside the kernel.  External effects
(HTTP fetches, image downloads, html.unescape, datetime.fromisoformat)
are modelled by their results, supplied as explicit function arguments.
-/

namespace ArenaGen

/-! ### Python string primitives -/

/-- Whitespace characters removed by Python str.strip. -/
def isPySpace (c : Char) : Bool :=
  c = ' ' || c = '\t' || c = '\n' || c = '\r' || c = '\x0b' || c = '\x0c'

/-- Drop leading Python whitespace from a character list. -/
def dropLeading : List Char → List Char
  | [] => []
  | c :: cs => if isPySpace c then dropLeading cs else c :: cs

/-- Python str.strip over the character list: remove leading and trailing whitespace. -/
def pyStrip (s : String) : String :=
  String.mk ((dropLeading ((dropLeading s.data.reverse).reverse)))

/-- Python str.startswith, via character-list prefix testing. -/
def strStartsWith (s pre : String) : Bool :=
  pre.data.isPrefixOf s.data

/-- Split a character list at a one-character separator (Python str.split
with a one-character separator, the only form the sources use). -/
def splitChar (sep : Char) : List Char → List (List Char)
  | [] => [[]]
  | c :: cs =>
    if c = sep then [] :: splitChar sep cs
    else
      match splitChar sep cs with
      | [] => [[c]]
      | g :: gs => (c :: g) :: gs

/-- Python content.split of a string on the newline character. -/
def pySplitNl (s : String) : List String :=
  (splitChar '\n' s.data).map String.mk

/-- Python sep.join over a list of strings. -/
def joinSep (sep : String) : List String → String
  | [] => ""
  | [s] => s
  | s :: rest => s ++ sep ++ joinSep sep rest

/-- Concatenation of a list of strings (the += accumulation in the sources). -/
def concatAll : List String → String
  | [] => ""
  | s :: rest => s ++ concatAll rest

/-- Python str.replace with a one-character pattern (the only form the
sources use), over the character list. -/
def replaceChar (c : Char) (repl : List Char) : List Char → List Char
  | [] => []
  | x :: xs => (if x = c then repl else [x]) ++ replaceChar c repl xs

/-- Python s[n:] on code points. -/
def strDrop (s : String) (n : Nat) : String :=
  String.mk (s.data.drop n)

/-- Python s[:n] on code points. -/
def strTake (s : String) (n : Nat) : String :=
  String.mk (s.data.take n)

/-- Python len on code points. -/
def strLen (s : String) : Nat :=
  s.data.length

/-- Python truthiness of an optional string field: present and nonempty. -/
def strTruthy : Option String → Bool
  | some s => !(s = "")
  | none => false

/-- Python truthiness of an optional integer identifier: present and nonzero. -/
def natTruthy : Option Nat → Bool
  | some n => !(n = 0)
  | none => false

/-! ### generate_typst.py: escape_typst_string (lines 59-69) -/

/-- escape_typst_string from generate_typst.py: escape backslashes first,
then double quotes, then hash characters, for use inside typst string
literals.  Empty (falsy) input returns the empty string. -/
def escape_typst_string (text : String) : String :=
  if text = "" then ""
  else
    let t1 := replaceChar '\\' ['\\', '\\'] text.data
    let t2 := replaceChar '\"' ['\\', '\"'] t1
    let t3 := replaceChar '#' ['\\', '#'] t2
    String.mk t3

/-- Modelled from the spec: the target markup's (typst's) string-literal
lexer, which is not part of this repository.  It interprets the three
escape sequences backslash-backslash, backslash-quote and backslash-hash
as the escaped character, and passes everything else through. -/
def typst_unescape : List Char → List Char
  | [] => []
  | c :: rest =>
    if c = '\\' then
      match rest with
      | [] => [c]
      | c2 :: rest2 =>
        if c2 = '\\' || c2 = '\"' || c2 = '#' then c2 :: typst_unescape rest2
        else c :: typst_unescape (c2 :: rest2)
    else c :: typst_unescape rest
termination_by l => l.length
decreasing_by
  · simp
    omega
  · simp
  · simp

/-- String-level wrapper of the modelled typst string-literal lexer. -/
def typst_unescape_str (s : String) : String :=
  String.mk (typst_unescape s.data)

/-! ### generate_typst.py: format_content_as_typst (lines 71-116) -/

/-- The bold-heading unit emitted for markdown headings (the f-string of
lines 88, 92 and 96, parametrised by the size tier). -/
def headingPart (size : String) (text : String) : String :=
  "      #text(weight: \"bold\", size: " ++ size ++ ")[" ++ escape_typst_string text ++ "]"

/-- The forced line-break unit of line 110. -/
def lbUnit : String := "      #linebreak()"

/-- The lookahead test of lines 108-110: the next line, after stripping,
starts with a dash or an asterisk or is empty, in which case no forced
line break is appended.  (The source states the appending condition; this
is its negation.) -/
def suppressNext (nxt : String) : Bool :=
  strStartsWith (pyStrip nxt) "-" || strStartsWith (pyStrip nxt) "*" || pyStrip nxt = ""

/-- One iteration of the loop of lines 79-110: classify a line against its
stripped form and emit the corresponding unit(s); a plain text line is
followed by a forced line break unless there is no next line or the
lookahead suppresses it. -/
def formatLine (line : String) (next? : Option String) : List String :=
  let stripped := pyStrip line
  if strStartsWith stripped "# " then [headingPart "13pt" (strDrop stripped 2)]
  else if strStartsWith stripped "## " then [headingPart "12pt" (strDrop stripped 3)]
  else if strStartsWith stripped "### " then [headingPart "11pt" (strDrop stripped 4)]
  else if stripped = "" then [""]
  else if strStartsWith stripped "- " || strStartsWith stripped "* " then
    ["      " ++ escape_typst_string line]
  else
    ("      " ++ escape_typst_string line) ::
      (match next? with
       | some nxt => if suppressNext nxt then [] else [lbUnit]
       | none => [])

/-- The whole loop of lines 79-110, walking the line list with one-line
lookahead (the enumerate index plus lines[i+1] access of the source). -/
def formatLines : List String → List String
  | [] => []
  | [l] => formatLine l none
  | l :: l2 :: rest => formatLine l (some l2) ++ formatLines (l2 :: rest)

/-- format_content_as_typst from generate_typst.py: split on newlines,
emit per-line units, drop a trailing forced line break (lines 112-114),
join with newlines.  Empty (falsy) content returns the empty string. -/
def format_content_as_typst (content : String) : String :=
  if content = "" then ""
  else
    let fl := formatLines (pySplitNl content)
    let fl2 := if fl.getLast? = some lbUnit then fl.dropLast else fl
    joinSep "\n" fl2

/-! ### generate_typst.py: generate_card (lines 118-175) -/

/-- A processed block as read back from the processed-data JSON file by
generate_typst.py line 122 and onwards (block.get calls; a none field
models an absent key). -/
structure PBlock where
  id : Option Nat
  title : Option String
  image_file : Option String
  content : Option String
  source_url : Option String
  channels : List String
deriving DecidableEq, Repr

/-- Path(p).name: the base name of a path, i.e. its last nonempty
slash-separated component (line 136). -/
def pathBaseName (p : String) : String :=
  List.getLastD (((splitChar '/' p.data).map String.mk).filter (fun s => !(s = ""))) ""

/-- The channels argument of lines 158-165: a parenthesized
comma-separated sequence of escaped string literals; a single-element
sequence gets a trailing comma so typst parses it as a tuple. -/
def channelsPart (channels : List String) : String :=
  let s := joinSep ", " (channels.map (fun c => "\"" ++ escape_typst_string c ++ "\""))
  if channels.length = 1 then "    channels: (" ++ s ++ ",),"
  else "    channels: (" ++ s ++ "),"

/-- The card_parts list built by generate_card (lines 120-171).  hasQr
models the HAS_QRCODE import probe; the QR-code generation side effect is
modelled by the path it returns (qrcodes/id.png). -/
def cardParts (b : PBlock) (imagesDir : String) (hasQr : Bool) : List String :=
  let p1 :=
    if strTruthy b.title then
      ["    title: \"" ++ escape_typst_string (b.title.getD "") ++ "\","]
    else []
  let p2 :=
    if strTruthy b.image_file then
      ["    img-path: \"" ++ pathBaseName imagesDir ++ "/" ++ b.image_file.getD "" ++ "\","]
    else if strTruthy b.content then
      ["    content: [\n" ++ format_content_as_typst (b.content.getD "") ++ "\n    ],"]
    else []
  let p3 :=
    if strTruthy b.source_url then
      let u := b.source_url.getD ""
      let disp := if 80 < strLen u then strTake u 80 ++ "..." else u
      ["    source-url: \"" ++ escape_typst_string u ++ "\",",
       "    source-url-display: \"" ++ escape_typst_string disp ++ "\","]
    else []
  let p4 := [channelsPart b.channels]
  let p5 :=
    if hasQr && natTruthy b.id then
      ["    qr-code: \"qrcodes/" ++ toString (b.id.getD 0) ++ ".png\","]
    else []
  p1 ++ p2 ++ p3 ++ p4 ++ p5

/-- generate_card from generate_typst.py: the card invocation string of
line 174. -/
def generate_card (b : PBlock) (imagesDir : String) (hasQr : Bool) : String :=
  "  card(\n" ++ joinSep "\n" (cardParts b imagesDir hasQr) ++ "\n  )"

/-! ### generate_typst.py: generate_typst_file (lines 177-316) -/

/-- The fixed opening of each per-page grid (lines 291-296). -/
def gridOpen : String :=
  "\n#grid(\n  columns: 2,\n  rows: 2,\n  column-gutter: card-gap,\n  row-gutter: card-gap,\n  \n"

/-- One grid block for a page of up to 4 cards (lines 291-302): the grid
opening, the cards joined by comma-newline, and the closing parenthesis. -/
def gridFor (imagesDir : String) (hasQr : Bool) (pageBlocks : List PBlock) : String :=
  gridOpen ++ joinSep ",\n" (pageBlocks.map (fun b => generate_card b imagesDir hasQr)) ++ "\n)\n"

/-- The page-break directive appended between consecutive grids
(lines 305-306). -/
def pagebreakStr : String := "\n#pagebreak()\n"

/-- The loop of lines 287-306: slice the block list four at a time, emit a
grid per slice, and append a page break exactly when further blocks remain
(i + 4 < len(blocks)). -/
def bodyLoop (imagesDir : String) (hasQr : Bool) : List PBlock → String
  | [] => ""
  | a :: b :: c :: d :: rest@(_ :: _) =>
    gridFor imagesDir hasQr [a, b, c, d] ++ pagebreakStr ++ bodyLoop imagesDir hasQr rest
  | l => gridFor imagesDir hasQr l

/-- The page slices taken by the loop of lines 287-288: successive groups
of 4 blocks, the last group possibly shorter. -/
def chunks4 : List PBlock → List (List PBlock)
  | [] => []
  | a :: b :: c :: d :: rest@(_ :: _) => [a, b, c, d] :: chunks4 rest
  | l => [l]

/-- The document preamble of lines 187-279 (the typst header string with
page setup and the card template definition), reproduced verbatim. -/
def headerStr : String :=
  "// generated cards from are.na data\n\n#set page(\n  width: 8.5in,\n  height: 11in,\n  margin: 0.5in,\n)\n\n#set text(\n  font: \"Arial\",\n  size: 11pt,\n)\n\n// card dimensions - 4 per page (2x2 grid)\n#let card-width = 3.5in\n#let card-height = 4.5in\n#let card-gap = 0.25in\n\n// card component\n#let card(\n  title: none,\n  img-path: none,\n  content: none,\n  source-url: none,\n  source-url-display: none,\n  channels: (),\n  qr-code: none,\n) = \x7b\n  // calculate image height based on whether source url exists\n  let img-height = if source-url != none \x7b 2in \x7d else \x7b 2.5in \x7d\n\n  box(\n    width: card-width,\n    height: card-height,\n    stroke: 0.5pt + luma(225),\n    inset: 0.3in,\n  )[\n    #v(0pt)\n\n    // title at top (if exists)\n    #if title != none [\n      #text(weight: \"bold\", size: 12pt)[#title]\n      #v(0.1in)\n    ]\n\n    // content area - image or text\n    #if img-path != none [\n      // image with contain fit - full width, conditional height\n      #box(\n        width: 100%,\n        height: img-height,\n      )[\n        #align(center + horizon)[\n          #image(img-path, fit: \"contain\", width: 100%, height: 100%)\n        ]\n      ]\n    ] else if content != none [\n      // rich text content\n      #align(left + top)[\n        #content\n      ]\n    ]\n\n    #v(1fr) // push everything below to bottom\n\n    // source url (if exists)\n    #if source-url != none [\n      #v(0.1in)\n      #text(size: 9pt, fill: blue)[\n        #link(source-url)[#if source-url-display != none [#source-url-display] else [#source-url]]\n      ]\n    ]\n\n    #v(0.1in)\n\n    // footer with channels and qr code\n    #line(length: 100%, stroke: 0.5pt + luma(200))\n    #v(0.05in)\n    #grid(\n      columns: (1fr, auto),\n      align: (left + top, right),\n      text(size: 9pt, fill: gray)[\n        #channels.map(ch => [‚óè #ch]).join(linebreak())\n      ],\n      if qr-code != none [\n        #image(qr-code, width: 0.4in, height: 0.4in, scaling: \"pixelated\")\n      ]\n    )\n  ]\n\x7d\n\n// generate cards\n"

/-- generate_typst_file from generate_typst.py, restricted to the string it
writes: the header followed by the paginated grids. -/
def generate_typst_output (imagesDir : String) (hasQr : Bool) (blocks : List PBlock) : String :=
  headerStr ++ bodyLoop imagesDir hasQr blocks

/-- Per-character encoding realised by the three sequential replacements of
escape_typst_string. -/
def encChar (c : Char) : List Char :=
  if c = '\\' then ['\\', '\\']
  else if c = '\"' then ['\\', '\"']
  else if c = '#' then ['\\', '#']
  else [c]

/-- encChar mapped over a character list. -/
def encodeAll : List Char → List Char
  | [] => []
  | c :: cs => encChar c ++ encodeAll cs

/-! ### process_arena_data.py: data model -/

/-- The nested image descriptor of a raw block (lines 310-314):
image.original.url and image.filename.  A block whose image key is absent,
falsy or not a dict is modelled by none at the block level. -/
structure ImageDesc where
  original_url : Option String
  filename : Option String
deriving DecidableEq, Repr

/-- The nested source descriptor (lines 293-294); none at the block level
models an absent source or one that is not a dict. -/
structure SourceDesc where
  url : Option String
deriving DecidableEq, Repr

/-- A raw block body as returned by the per-block API fetch (the JSON dict
of line 130), restricted to the keys process_arena_data.py reads.  A none
field models an absent or null key; user_slug is user.get('slug'). -/
structure BlockBody where
  id : Option Nat
  updated_at : Option String
  connected_at : Option String
  title : Option String
  generated_title : Option String
  user_slug : Option String
  source : Option SourceDesc
  image : Option ImageDesc
  content : Option String
deriving DecidableEq, Repr

/-- A raw block with its channel membership attached (line 132). -/
structure RawBlock extends BlockBody where
  channel_titles : List String
deriving DecidableEq, Repr

/-- A processed block entry as built in lines 297-333 and serialized to
the processed-data file.  A none field models an absent key. -/
structure NormalizedBlock where
  id : Nat
  channels : List String
  author : String
  title : Option String
  source_url : Option String
  image_url : Option String
  image_file : Option String
  content : Option String
deriving DecidableEq, Repr

/-- The external collaborators of process_arena_data.py, modelled by their
results: parse models datetime.fromisoformat on the string with a Z suffix
already rewritten to an offset (none = ValueError), with parsed datetimes
mapped into Int; unescape models html.unescape; download models
download_image (url, block id, source filename; none = failed download). -/
structure Env where
  parse : String → Option Int
  unescape : String → String
  download : String → Nat → String → Option String

/-! ### process_arena_data.py: block normalization (lines 216-345) -/

/-- Parse one optional timestamp field as lines 256-262 do: only a present,
truthy (nonempty) string is handed to the parser; a parse failure
contributes nothing. -/
def parseField (parse : String → Option Int) : Option String → Option Int
  | some s => if s = "" then none else parse s
  | none => none

/-- The effective date of a block (lines 253-273): start from updated_at,
then take connected_at instead when it parses and is strictly more recent
or nothing was parsed yet. -/
def blockDate (parse : String → Option Int) (b : RawBlock) : Option Int :=
  let bd : Option Int := parseField parse b.updated_at
  match parseField parse b.connected_at with
  | some c =>
    match bd with
    | none => some c
    | some d => if c > d then some c else some d
  | none => bd

/-- Maximum of two optional dates (for stating what blockDate computes). -/
def optMax : Option Int → Option Int → Option Int
  | none, y => y
  | some a, none => some a
  | some a, some b => some (max a b)

/-- The title resolution of lines 281-286 and 304-305: explicit title with
generated_title fallback (Python or on falsy values), the sentinel
"Untitled" treated as absent, HTML entities decoded, and the field stored
only if the result is truthy. -/
def titleField (env : Env) (b : RawBlock) : Option String :=
  let t := if b.title.getD "" = "" then b.generated_title.getD "" else b.title.getD ""
  if t = "Untitled" then none
  else if t = "" then none
  else
    let u := env.unescape t
    if u = "" then none else some u

/-- The source-url extraction of lines 293-294 and 306-307: the url of a
dict-valued source, stored only if truthy. -/
def sourceUrlField (b : RawBlock) : Option String :=
  match b.source with
  | some sd =>
    match sd.url with
    | some u => if u = "" then none else some u
    | none => none
  | none => none

/-- The image handling of lines 309-325, producing the image_url and
image_file fields: a dict-valued image with a truthy original url records
the url and, when the download returns a truthy filename, the downloaded
filename. -/
def imageFields (env : Env) (bid : Nat) : Option ImageDesc → Option String × Option String
  | none => (none, none)
  | some img =>
    match img.original_url with
    | some u =>
      if u = "" then (none, none)
      else
        match env.download u bid (img.filename.getD "image") with
        | some df => if df = "" then (some u, none) else (some u, some df)
        | none => (some u, none)
    | none => (none, none)

/-- The content handling of lines 327-331: a truthy content value is
HTML-entity-decoded and stored, with no regard to the image fields. -/
def contentField (env : Env) : Option String → Option String
  | some c => if c = "" then none else some (env.unescape c)
  | none => none

/-- One iteration of the processing loop (lines 240-333): skip blocks
without a truthy id, apply the optional date filter, then assemble the
normalized entry. -/
def processBlock (env : Env) (minD : Option Int) (b : RawBlock) : Option NormalizedBlock :=
  match b.id with
  | none => none
  | some bid =>
    if bid = 0 then none
    else
      let skip :=
        match minD with
        | some m =>
          match blockDate env.parse b with
          | some d => decide (d < m)
          | none => false
        | none => false
      if skip then none
      else
        let pair := imageFields env bid b.image
        some
          { id := bid
            channels := b.channel_titles
            author := b.user_slug.getD ""
            title := titleField env b
            source_url := sourceUrlField b
            image_url := pair.1
            image_file := pair.2
            content := contentField env b.content }

/-- process_arena_data from process_arena_data.py, restricted to the list
of processed entries it accumulates and serializes (the image downloads
and file writes are modelled through Env). -/
def process_arena_data (env : Env) (minD : Option Int) (blocks : List RawBlock) :
    List NormalizedBlock :=
  blocks.filterMap (processBlock env minD)

/-! ### process_arena_data.py: download_arena_data (lines 27-144) -/

/-- An item of a channel contents page; only its id is read (lines 73-79). -/
structure PageItem where
  id : Option Nat
deriving DecidableEq, Repr

/-- The paginated contents of one channel as the API returns them: the
reported total length, the first page, and the successive further pages.
A transport failure partway through pagination behaves like the page list
ending there, since each page is recorded as soon as it is fetched. -/
structure ChannelPages where
  total : Nat
  firstPage : List PageItem
  morePages : List (List PageItem)
deriving DecidableEq, Repr

/-- A channel from the user's channel list (lines 48-53) together with the
result of fetching its contents; none models the exception branch of
lines 111-113 on the first fetch. -/
structure ChannelFetch where
  slug : Option String
  title : Option String
  pages : Option ChannelPages
deriving DecidableEq, Repr

/-- The block-to-channels mapping, a dict preserving insertion order. -/
abbrev ChanMap := List (Nat × List String)

/-- The recording step of lines 76-79 and 102-105: create the entry on
first sight of the id, then append the channel title only if it is not
already recorded for that id. -/
def recordPair (m : ChanMap) (bid : Nat) (title : String) : ChanMap :=
  match m with
  | [] => [(bid, [title])]
  | (k, ts) :: rest =>
    if k = bid then (k, if title ∈ ts then ts else ts ++ [title]) :: rest
    else (k, ts) :: recordPair rest bid title

/-- The channel list currently recorded for an id (block_to_channels[bid],
empty when the key is absent). -/
def channelsOf (m : ChanMap) (bid : Nat) : List String :=
  match m with
  | [] => []
  | (k, ts) :: rest => if k = bid then ts else channelsOf rest bid

/-- Processing of one page item (lines 73-79, 99-105): items without a
truthy id are dropped. -/
def recordItem (title : String) (m : ChanMap) (it : PageItem) : ChanMap :=
  match it.id with
  | some bid => if bid = 0 then m else recordPair m bid title
  | none => m

/-- The pagination loop of lines 82-109: keep consuming pages while fewer
items than the reported total have been received, stopping at an empty
page; an exhausted page list models the API returning empty pages. -/
def collectPages (total : Nat) : Nat → List (List PageItem) → List PageItem
  | _, [] => []
  | received, p :: rest =>
    if received < total then
      if p = [] then []
      else p ++ collectPages total (received + p.length) rest
    else []

/-- All items recorded for one channel: the first page, then the extra
pages when the first page fell short of the reported total (line 82). -/
def channelItems (cp : ChannelPages) : List PageItem :=
  cp.firstPage ++
    (if cp.firstPage.length < cp.total then
      collectPages cp.total cp.firstPage.length cp.morePages
    else [])

/-- Processing of one channel (lines 48-113): skip channels without a
truthy slug, skip failed fetches, otherwise record every item of every
fetched page under the channel title (default Untitled). -/
def processChannel (m : ChanMap) (ch : ChannelFetch) : ChanMap :=
  if strTruthy ch.slug then
    match ch.pages with
    | some cp => (channelItems cp).foldl (recordItem (ch.title.getD "Untitled")) m
    | none => m
  else m

/-- The channel-aggregation phase of download_arena_data (lines 46-113):
fold all channels into the block-to-channels mapping. -/
def download_arena_data_map (channels : List ChannelFetch) : ChanMap :=
  channels.foldl processChannel []

/-- The per-block fetch phase of download_arena_data (lines 115-136):
fetch each key of the mapping, attach its channel titles on success, and
drop it on failure (the exception branch of lines 134-136).  fetch models
the blocks API by its result. -/
def fetchBlocks (fetch : Nat → Option BlockBody) (m : ChanMap) : List RawBlock :=
  m.filterMap (fun p => (fetch p.1).map (fun body => { toBlockBody := body, channel_titles := p.2 }))

/-! ### Derived classifications and concrete inputs used in the statements -/

/-- A line that falls into the default branch of the loop of lines 79-110:
not a heading, not blank after stripping, not a list bullet. -/
def isPlainLine (l : String) : Bool :=
  !(strStartsWith (pyStrip l) "# ") && !(strStartsWith (pyStrip l) "## ") &&
  !(strStartsWith (pyStrip l) "### ") && !(pyStrip l = "") &&
  !(strStartsWith (pyStrip l) "- ") && !(strStartsWith (pyStrip l) "* ")

/-- Example environment: identity entity decoding, no timestamp parses, every
image download succeeds with the name 7.png. -/
def c1Env : Env := ⟨fun _ => none, fun s => s, fun _ _ _ => some "7.png"⟩

/-- Example raw block carrying both an image descriptor and text content. -/
def c1Block : RawBlock :=
  { id := some 7, updated_at := none, connected_at := none, title := none,
    generated_title := none, user_slug := none, source := none,
    image := some ⟨some "http://img", some "f.png"⟩, content := some "hello",
    channel_titles := ["C"] }

/-- The normalized entry the pipeline produces for c1Block. -/
def c1Norm : NormalizedBlock :=
  { id := 7, channels := ["C"], author := "", title := none, source_url := none,
    image_url := some "http://img", image_file := some "7.png", content := some "hello" }

/-- Example environment whose timestamp parser knows two strings. -/
def c5Env : Env :=
  ⟨fun s => if s = "a" then some 1 else if s = "b" then some 5 else none,
   fun s => s, fun _ _ _ => none⟩

/-- Example raw block with two parseable timestamps. -/
def c5Block : RawBlock :=
  { id := some 3, updated_at := some "a", connected_at := some "b", title := none,
    generated_title := none, user_slug := none, source := none,
    image := none, content := some "x", channel_titles := [] }

/-- Example channel listing whose single channel reports the same block on
two successive pages. -/
def c3Channels : List ChannelFetch :=
  [⟨some "s", some "T", some ⟨2, [⟨some 1⟩], [[⟨some 1⟩]]⟩⟩]

/-- Example block body for the fetch models. -/
def c8Body : BlockBody :=
  ⟨some 2, none, none, none, none, none, none, none, none⟩

/-- Example blocks-API model failing exactly on id 1. -/
def c8Fetch : Nat → Option BlockBody := fun n => if n = 1 then none else some c8Body

/-- Example aggregated mapping with two keys. -/
def c8Map : ChanMap := [(1, ["a"]), (2, ["b"])]

/-- Example channel listing producing the single key 1. -/
def c10Channels : List ChannelFetch :=
  [⟨some "s", some "C", some ⟨1, [⟨some 1⟩], []⟩⟩]

/-- Example blocks-API model whose response body carries no id field. -/
def c10Fetch : Nat → Option BlockBody :=
  fun _ => some ⟨none, none, none, none, none, none, none, none, some "hello"⟩

/-- Example environment with no downloads and no parseable timestamps. -/
def c10Env : Env := ⟨fun _ => none, fun s => s, fun _ _ _ => none⟩

/-- Example blocks-API model always echoing a truthy id. -/
def c10WFetch : Nat → Option BlockBody :=
  fun _ => some ⟨some 5, none, none, none, none, none, none, none, some "t"⟩

/-- Example processed block with an image file, content and one channel. -/
def c6Block : PBlock :=
  { id := some 4, title := some "T", image_file := some "4.png",
    content := some "body", source_url := none, channels := ["one"] }

theorem replaceChar_append (c : Char) (r : List Char) (a b : List Char) :
    replaceChar c r (a ++ b) = replaceChar c r a ++ replaceChar c r b := by
  induction a with
  | nil => simp [replaceChar]
  | cons x xs ih => simp [replaceChar, ih]

theorem escape_chain_eq_encodeAll (l : List Char) :
    replaceChar '#' ['\\', '#']
      (replaceChar '\"' ['\\', '\"']
        (replaceChar '\\' ['\\', '\\'] l)) = encodeAll l := by
  induction l with
  | nil => simp [replaceChar, encodeAll]
  | cons x xs ih =>
    by_cases h1 : x = '\\'
    · subst h1
      simp [replaceChar, replaceChar_append, encodeAll, encChar, ih]
    · by_cases h2 : x = '\"'
      · subst h2
        simp [replaceChar, replaceChar_append, encodeAll, encChar, ih]
      · by_cases h3 : x = '#'
        · subst h3
          simp [replaceChar, replaceChar_append, encodeAll, encChar, ih]
        · simp [replaceChar, replaceChar_append, encodeAll, encChar, h1, h2, h3, ih]

theorem escape_data (s : String) :
    (escape_typst_string s).data = encodeAll s.data := by
  by_cases h : s = ""
  · subst h
    simp [escape_typst_string]
    rfl
  · simp [escape_typst_string, h, escape_chain_eq_encodeAll]

theorem typst_unescape_encodeAll (l : List Char) :
    typst_unescape (encodeAll l) = l := by
  induction l with
  | nil =>
    rw [show encodeAll ([] : List Char) = [] from rfl, typst_unescape.eq_def]
  | cons c cs ih =>
    by_cases h1 : c = '\\'
    · subst h1
      simp [encodeAll, encChar, typst_unescape, ih]
    · by_cases h2 : c = '\"'
      · subst h2
        simp [encodeAll, encChar, typst_unescape, ih]
      · by_cases h3 : c = '#'
        · subst h3
          simp [encodeAll, encChar, typst_unescape, ih]
        · have he : encodeAll (c :: cs) = c :: encodeAll cs := by
            simp [encodeAll, encChar, h1, h2, h3]
          rw [he, typst_unescape.eq_def]
          simp [h1, ih]

/-- C4: escaping a string for typst (backslash first, then quote, then hash)
and interpreting the result with the target markup's string-literal lexer
yields back the original string verbatim; in particular the round trip holds
for the string consisting of the literal characters hash, quote, backslash. -/
theorem C4_escape_roundtrip :
    (∀ s : String, typst_unescape_str (escape_typst_string s) = s) ∧
    typst_unescape_str (escape_typst_string "#\"\\") = "#\"\\" := by
  have h : ∀ s : String, typst_unescape_str (escape_typst_string s) = s := by
    intro s
    unfold typst_unescape_str
    rw [escape_data s, typst_unescape_encodeAll]
  exact ⟨h, h _⟩

/-- C2 counterexample: for the input consisting of the plain line A followed
by the line dash-x, the next line is neither blank nor a list item (it does
not start with dash-space or asterisk-space), yet the converter emits no
forced line break after A, because the lookahead of the code tests only the
bare leading dash of the stripped next line. -/
theorem C2_counterexample :
    format_content_as_typst "A\n-x" = "      A\n      -x" ∧
    lbUnit ∉ formatLines (pySplitNl "A\n-x") ∧
    pyStrip "-x" = "-x" ∧
    strStartsWith "-x" "- " = false ∧
    strStartsWith "-x" "* " = false ∧
    ("-x" : String) ≠ "" := by
  refine ⟨by decide, by decide, by decide, by decide, by decide, by decide⟩

/-- C2 (amended): each plain text line followed by a further line gets a
forced line break after it, unless the next line, after stripping, is empty
or starts with a dash or an asterisk (a bare bullet character, with no
space required), in which case no break is appended; the input A, B, dash
item gets a break between A and B and none before the list item; and a
trailing forced line break is dropped by the post-pass. -/
theorem C2_linebreak_suppression (l nxt : String) (h : isPlainLine l = true) :
    (formatLine l (some nxt) =
      if suppressNext nxt then ["      " ++ escape_typst_string l]
      else ["      " ++ escape_typst_string l, lbUnit]) ∧
    (suppressNext nxt = true ↔
      (pyStrip nxt = "" ∨ strStartsWith (pyStrip nxt) "-" = true ∨
        strStartsWith (pyStrip nxt) "*" = true)) ∧
    format_content_as_typst "A\nB\n- item" =
      "      A\n      #linebreak()\n      B\n      - item" ∧
    (∀ content : String,
      (formatLines (pySplitNl content)).getLast? = some lbUnit →
        format_content_as_typst content =
          joinSep "\n" ((formatLines (pySplitNl content)).dropLast)) := by
  refine ⟨?_, ?_, by decide, ?_⟩
  · unfold isPlainLine at h
    simp only [Bool.and_eq_true, Bool.not_eq_true'] at h
    obtain ⟨⟨⟨⟨⟨h1, h2⟩, h3⟩, h4⟩, h5⟩, h6⟩ := h
    have h4' : ¬(pyStrip l = "") := of_decide_eq_false h4
    unfold formatLine
    simp only [h1, h2, h3, h4', h5, h6, Bool.false_eq_true, if_false]
    by_cases hs : suppressNext nxt <;> simp [hs]
  · unfold suppressNext
    constructor
    · intro h'
      rcases Bool.or_eq_true_iff.mp h' with h' | h'
      · rcases Bool.or_eq_true_iff.mp h' with h' | h'
        · exact Or.inr (Or.inl h')
        · exact Or.inr (Or.inr h')
      · exact Or.inl (by simpa using h')
    · intro h'
      rcases h' with h' | h' | h'
      · simp [h']
      · simp [h']
      · simp [h']
  · intro content hlast
    have hc : content ≠ "" := by
      intro he
      subst he
      revert hlast
      decide
    unfold format_content_as_typst
    simp only [hc, if_false, hlast, if_true]

/-- C2 witness: the suppression rule applied at the plain line A with
lookahead B (no suppression, so a forced break is emitted). -/
theorem C2_witness :
    formatLine "A" (some "B") =
      if suppressNext "B" then ["      " ++ escape_typst_string "A"]
      else ["      " ++ escape_typst_string "A", lbUnit] :=
  (C2_linebreak_suppression "A" "B" (by decide)).1

/-- C6: when a block record carries both a truthy image filename and truthy
text content, the emitted card contains the image-path argument prefixed
with the image directory base name, and is identical to the card of the
same record with the content dropped (so no content argument is emitted);
a content block is emitted (for truthy content) exactly when the record has
no image filename. -/
theorem C6_image_precedence (b : PBlock) (imagesDir : String) (hasQr : Bool) (f c : String)
    (hf : b.image_file = some f) (hf0 : f ≠ "") (hc : b.content = some c) (hc0 : c ≠ "") :
    ("    img-path: \"" ++ pathBaseName imagesDir ++ "/" ++ f ++ "\",") ∈
      cardParts b imagesDir hasQr ∧
    cardParts b imagesDir hasQr = cardParts { b with content := none } imagesDir hasQr ∧
    (∀ b' : PBlock, b'.image_file = none → strTruthy b'.content = true →
      ("    content: [\n" ++ format_content_as_typst (b'.content.getD "") ++ "\n    ],") ∈
        cardParts b' imagesDir hasQr) := by
  have ht : strTruthy b.image_file = true := by rw [hf]; simp [strTruthy, hf0]
  refine ⟨?_, ?_, ?_⟩
  · simp [cardParts, hf, strTruthy, hf0]
  · simp [cardParts, ht]
  · intro b' h1 h2
    simp [cardParts, h1, strTruthy, h2]
    exact Or.inr (Or.inl h2)

/-- C6 witness: the rule applied to a concrete record with image 4.png and
content both present. -/
theorem C6_witness :
    ("    img-path: \"" ++ pathBaseName "out/images" ++ "/" ++ "4.png" ++ "\",") ∈
      cardParts c6Block "out/images" true ∧
    cardParts c6Block "out/images" true =
      cardParts { c6Block with content := none } "out/images" true ∧
    (∀ b' : PBlock, b'.image_file = none → strTruthy b'.content = true →
      ("    content: [\n" ++ format_content_as_typst (b'.content.getD "") ++ "\n    ],") ∈
        cardParts b' "out/images" true) :=
  C6_image_precedence c6Block "out/images" true "4.png" "body" rfl (by decide) rfl (by decide)

/-- C9: every emitted card contains the channels argument; a single channel
yields a parenthesized escaped string literal followed by a trailing comma,
while two or more channels yield the comma-separated escaped literals with
no trailing separator before the closing parenthesis. -/
theorem C9_channels_argument (b : PBlock) (imagesDir : String) (hasQr : Bool) :
    channelsPart b.channels ∈ cardParts b imagesDir hasQr ∧
    (∀ c : String,
      channelsPart [c] = "    channels: (\"" ++ escape_typst_string c ++ "\",),") ∧
    (∀ cs : List String, 2 ≤ cs.length →
      channelsPart cs =
        "    channels: (" ++
          joinSep ", " (cs.map (fun c => "\"" ++ escape_typst_string c ++ "\"")) ++ "),") := by
  refine ⟨?_, ?_, ?_⟩
  · simp [cardParts]
  · intro c
    simp [channelsPart, joinSep]
    rw [show ("    channels: (\"" : String) = "    channels: (" ++ "\"" from rfl,
        show ("\",)," : String) = "\"" ++ ",)," from rfl]
    simp [String.append_assoc]
    rw [← String.append_assoc]
    rfl
  · intro cs hlen
    have hne : cs.length ≠ 1 := by omega
    simp [channelsPart, hne]

/-- C9 witness: the two-channel case evaluated concretely through the rule. -/
theorem C9_witness :
    channelsPart ["a", "b"] =
      "    channels: (" ++
        joinSep ", " (["a", "b"].map (fun c => "\"" ++ escape_typst_string c ++ "\"")) ++ "),"
  := (C9_channels_argument c6Block "images" false).2.2 ["a", "b"] (by decide)

theorem chunks4_ne_nil (bs : List PBlock) (h : bs ≠ []) : chunks4 bs ≠ [] := by
  induction bs using chunks4.induct with
  | case1 => exact absurd rfl h
  | case2 a b c d x xs ih => simp [chunks4]
  | case3 l h1 h2 =>
    rcases l with _ | ⟨a, t⟩
    · exact absurd rfl h
    · rcases t with _ | ⟨b, t⟩
      · simp [chunks4]
      · rcases t with _ | ⟨c, t⟩
        · simp [chunks4]
        · rcases t with _ | ⟨d, t⟩
          · simp [chunks4]
          · rcases t with _ | ⟨e, t⟩
            · simp [chunks4]
            · exact (h2 a b c d e t rfl).elim

theorem bodyLoop_eq_intersperse (imagesDir : String) (hasQr : Bool) (bs : List PBlock) :
    bodyLoop imagesDir hasQr bs =
      concatAll (List.intersperse pagebreakStr ((chunks4 bs).map (gridFor imagesDir hasQr))) := by
  induction bs using chunks4.induct with
  | case1 => simp [bodyLoop, chunks4, concatAll]
  | case2 a b c d x xs ih =>
    have hne : chunks4 (x :: xs) ≠ [] := chunks4_ne_nil _ (by simp)
    rcases hc : chunks4 (x :: xs) with _ | ⟨g, gs⟩
    · exact absurd hc hne
    · simp only [bodyLoop, chunks4, hc, List.map_cons, List.intersperse_cons_cons, concatAll, ih]
      simp [String.append_assoc]
  | case3 l h1 h2 =>
    rcases l with _ | ⟨a, t⟩
    · exact absurd rfl h1
    · rcases t with _ | ⟨b, t⟩
      · simp [bodyLoop, chunks4, concatAll, String.append_empty]
      · rcases t with _ | ⟨c, t⟩
        · simp [bodyLoop, chunks4, concatAll, String.append_empty]
        · rcases t with _ | ⟨d, t⟩
          · simp [bodyLoop, chunks4, concatAll, String.append_empty]
          · rcases t with _ | ⟨e, t⟩
            · simp [bodyLoop, chunks4, concatAll, String.append_empty]
            · exact (h2 a b c d e t rfl).elim

theorem chunks4_length (bs : List PBlock) : (chunks4 bs).length = (bs.length + 3) / 4 := by
  induction bs using chunks4.induct with
  | case1 => simp [chunks4]
  | case2 a b c d x xs ih =>
    simp [chunks4, ih]
    omega
  | case3 l h1 h2 =>
    rcases l with _ | ⟨a, t⟩
    · exact absurd rfl h1
    · rcases t with _ | ⟨b, t⟩
      · simp [chunks4]
      · rcases t with _ | ⟨c, t⟩
        · simp [chunks4]
        · rcases t with _ | ⟨d, t⟩
          · simp [chunks4]
          · rcases t with _ | ⟨e, t⟩
            · simp [chunks4]
            · exact (h2 a b c d e t rfl).elim

theorem chunks4_getD (bs : List PBlock) (i : Nat) :
    (chunks4 bs).getD i [] = (bs.drop (4 * i)).take 4 := by
  induction bs using chunks4.induct generalizing i with
  | case1 => simp [chunks4]
  | case2 a b c d x xs ih =>
    cases i with
    | zero => simp [chunks4]
    | succ j =>
      have h4 : 4 * (j + 1) = 4 * j + 4 := by omega
      simp only [chunks4, List.getD, List.getElem?_cons_succ, h4]
      have := ih j
      simp only [List.getD] at this
      rw [show ∀ l : List PBlock, l.drop (4 * j + 4) = (l.drop 4).drop (4 * j) from
        fun l => by rw [List.drop_drop]; ring_nf]
      simpa using this
  | case3 l h1 h2 =>
    have hlen : l.length ≤ 4 := by
      rcases l with _ | ⟨a, t⟩
      · simp
      · rcases t with _ | ⟨b, t⟩
        · simp
        · rcases t with _ | ⟨c, t⟩
          · simp
          · rcases t with _ | ⟨d, t⟩
            · simp
            · rcases t with _ | ⟨e, t⟩
              · simp
              · exact (h2 a b c d e t rfl).elim
    have hch : chunks4 l = [l] := by
      rcases l with _ | ⟨a, t⟩
      · exact absurd rfl h1
      · rcases t with _ | ⟨b, t⟩
        · simp [chunks4]
        · rcases t with _ | ⟨c, t⟩
          · simp [chunks4]
          · rcases t with _ | ⟨d, t⟩
            · simp [chunks4]
            · rcases t with _ | ⟨e, t⟩
              · simp [chunks4]
              · exact (h2 a b c d e t rfl).elim
    rw [hch]
    cases i with
    | zero =>
      simp [List.take_of_length_le hlen]
    | succ j =>
      have hd : l.drop (4 * (j + 1)) = [] := List.drop_eq_nil_of_le (by omega)
      simp [hd]

/-- C7: the emitted document is the header followed by one grid per chunk of
4 blocks in order, with exactly one page-break directive interspersed
between consecutive grids and none after the last; the number of chunks is
the rounded-up quotient of the block count by 4, the i-th chunk holds the
i-th window of 4 blocks, and 5 blocks split as 4 plus 1. -/
theorem C7_pagination (imagesDir : String) (hasQr : Bool) (blocks : List PBlock) :
    generate_typst_output imagesDir hasQr blocks =
      headerStr ++
        concatAll (List.intersperse pagebreakStr
          ((chunks4 blocks).map (gridFor imagesDir hasQr))) ∧
    (chunks4 blocks).length = (blocks.length + 3) / 4 ∧
    (∀ i : Nat, (chunks4 blocks).getD i [] = (blocks.drop (4 * i)).take 4) ∧
    (∀ a b c d e : PBlock, chunks4 [a, b, c, d, e] = [[a, b, c, d], [e]]) := by
  refine ⟨?_, chunks4_length blocks, fun i => chunks4_getD blocks i, fun a b c d e => by simp [chunks4]⟩
  unfold generate_typst_output
  rw [bodyLoop_eq_intersperse]

theorem recordPair_nodup (m : ChanMap) (bid : Nat) (t : String)
    (h : ∀ p ∈ m, p.2.Nodup) : ∀ p ∈ recordPair m bid t, p.2.Nodup := by
  induction m with
  | nil =>
    intro p hp
    simp [recordPair] at hp
    subst hp
    simp
  | cons q rest ih =>
    obtain ⟨k, ts⟩ := q
    intro p hp
    by_cases hk : k = bid
    · simp only [recordPair, hk, if_true] at hp
      rcases List.mem_cons.mp hp with h1 | h1
      · subst h1
        have hnd : ts.Nodup := h (k, ts) (List.mem_cons_self _ _)
        by_cases hm : t ∈ ts
        · simpa [hm] using hnd
        · simp [hm, List.nodup_append, hnd]
      · exact h p (List.mem_cons_of_mem _ h1)
    · simp only [recordPair, hk, if_false] at hp
      rcases List.mem_cons.mp hp with h1 | h1
      · subst h1
        exact h (k, ts) (List.mem_cons_self _ _)
      · exact ih (fun q hq => h q (List.mem_cons_of_mem _ hq)) p h1

theorem recordItem_nodup (title : String) (m : ChanMap) (it : PageItem)
    (h : ∀ p ∈ m, p.2.Nodup) : ∀ p ∈ recordItem title m it, p.2.Nodup := by
  unfold recordItem
  rcases it with ⟨_ | bid⟩
  · exact h
  · by_cases h0 : bid = 0
    · simpa [h0] using h
    · simpa [h0] using recordPair_nodup m bid title h

theorem foldl_recordItem_nodup (title : String) (items : List PageItem) (m : ChanMap)
    (h : ∀ p ∈ m, p.2.Nodup) : ∀ p ∈ items.foldl (recordItem title) m, p.2.Nodup := by
  induction items generalizing m with
  | nil => exact h
  | cons it rest ih =>
    intro p hp
    exact ih (recordItem title m it) (recordItem_nodup title m it h) p hp

theorem processChannel_nodup (m : ChanMap) (ch : ChannelFetch)
    (h : ∀ p ∈ m, p.2.Nodup) : ∀ p ∈ processChannel m ch, p.2.Nodup := by
  unfold processChannel
  by_cases hs : strTruthy ch.slug
  · rcases ch.pages with _ | cp
    · simpa [hs] using h
    · simpa [hs] using foldl_recordItem_nodup (ch.title.getD "Untitled") (channelItems cp) m h
  · simpa [hs] using h

/-- C3: for every run of the channel aggregation, every block's recorded
channel list is duplicate-free (each block-id / channel-name pair appears
at most once), and recording a channel name already present for an id
leaves the mapping unchanged (idempotent union). -/
theorem C3_channel_dedup :
    (∀ (channels : List ChannelFetch) (p : Nat × List String),
      p ∈ download_arena_data_map channels → p.2.Nodup) ∧
    (∀ (m : ChanMap) (bid : Nat) (t : String),
      t ∈ channelsOf m bid → recordPair m bid t = m) := by
  constructor
  · intro channels
    unfold download_arena_data_map
    have main : ∀ (cs : List ChannelFetch) (m : ChanMap), (∀ p ∈ m, p.2.Nodup) →
        ∀ p ∈ cs.foldl processChannel m, p.2.Nodup := by
      intro cs
      induction cs with
      | nil => intro m h; exact h
      | cons ch rest ih =>
        intro m h p hp
        exact ih (processChannel m ch) (processChannel_nodup m ch h) p hp
    exact fun p hp => main channels [] (by simp) p hp
  · intro m bid t
    induction m with
    | nil => intro h; simp [channelsOf] at h
    | cons q rest ih =>
      obtain ⟨k, ts⟩ := q
      intro h
      by_cases hk : k = bid
      · simp only [channelsOf, hk, if_true] at h
        simp [recordPair, hk, h]
      · simp only [channelsOf, hk, if_false] at h
        simp [recordPair, hk, ih h]

/-- C3 witness: a channel reporting the same block id on two successive
pages records the channel title once, and re-recording it is a no-op. -/
theorem C3_witness :
    List.Nodup ["T"] ∧ recordPair [(1, ["T"])] 1 "T" = [(1, ["T"])] :=
  ⟨C3_channel_dedup.1 c3Channels (1, ["T"]) (by decide),
   C3_channel_dedup.2 [(1, ["T"])] 1 "T" (by decide)⟩

/-- C8: when the per-block fetch for one identifier fails, the raw result
list is exactly what it would be with that identifier removed from the
aggregated mapping (the block is dropped, the run continues, every other
block's entry is unchanged), and so is the normalized output computed from
it. -/
theorem C8_block_fetch_failure (fetch : Nat → Option BlockBody) (m : ChanMap) (bid : Nat)
    (h : fetch bid = none) :
    fetchBlocks fetch m = fetchBlocks fetch (m.filter (fun p => !(p.1 = bid))) ∧
    (∀ (env : Env) (minD : Option Int),
      process_arena_data env minD (fetchBlocks fetch m) =
        process_arena_data env minD
          (fetchBlocks fetch (m.filter (fun p => !(p.1 = bid))))) := by
  have h1 : fetchBlocks fetch m = fetchBlocks fetch (m.filter (fun p => !(p.1 = bid))) := by
    induction m with
    | nil => rfl
    | cons p rest ih =>
      rcases p with ⟨k, ts⟩
      by_cases hp : k = bid
      · subst hp
        simp only [fetchBlocks, List.filterMap_cons, List.filter_cons] at ih ⊢
        simp [h, ih]
      · simp only [fetchBlocks, List.filterMap_cons, List.filter_cons] at ih ⊢
        rcases hf : fetch k with _ | body
        · simp [hp, hf, ih]
        · simp [hp, hf, ih]
  exact ⟨h1, fun env minD => congrArg _ h1⟩

/-- C8 witness: the failure rule applied to a concrete mapping whose first
key fails to fetch. -/
theorem C8_witness :
    fetchBlocks c8Fetch c8Map = fetchBlocks c8Fetch (c8Map.filter (fun p => !(p.1 = 1))) :=
  (C8_block_fetch_failure c8Fetch c8Map 1 rfl).1

/-- C10 counterexample: the aggregation produces the truthy key 1, but the
per-block fetch returns a body with no id field; that body is passed on to
normalization, where the skip-if-no-identifier branch fires (the nonempty
raw list normalizes to the empty list), so the branch is reachable on
fetcher-produced data. -/
theorem C10_counterexample :
    download_arena_data_map c10Channels = [(1, ["C"])] ∧
    fetchBlocks c10Fetch (download_arena_data_map c10Channels) =
      [{ toBlockBody := ⟨none, none, none, none, none, none, none, none, some "hello"⟩,
         channel_titles := ["C"] }] ∧
    process_arena_data c10Env none
      (fetchBlocks c10Fetch (download_arena_data_map c10Channels)) = [] := by
  refine ⟨by decide, by decide, by decide⟩

theorem recordPair_fst (m : ChanMap) (bid : Nat) (t : String) :
    ∀ p ∈ recordPair m bid t, p.1 = bid ∨ ∃ q ∈ m, q.1 = p.1 := by
  induction m with
  | nil =>
    intro p hp
    simp [recordPair] at hp
    subst hp
    simp
  | cons q rest ih =>
    obtain ⟨k, ts⟩ := q
    intro p hp
    by_cases hk : k = bid
    · simp only [recordPair, hk, if_true] at hp
      rcases List.mem_cons.mp hp with h1 | h1
      · subst h1
        exact Or.inl rfl
      · exact Or.inr ⟨p, List.mem_cons_of_mem _ h1, rfl⟩
    · simp only [recordPair, hk, if_false] at hp
      rcases List.mem_cons.mp hp with h1 | h1
      · subst h1
        exact Or.inr ⟨(k, ts), List.mem_cons_self _ _, rfl⟩
      · rcases ih p h1 with h2 | ⟨q, hq, hq2⟩
        · exact Or.inl h2
        · exact Or.inr ⟨q, List.mem_cons_of_mem _ hq, hq2⟩

theorem recordItem_keys (title : String) (m : ChanMap) (it : PageItem)
    (h : ∀ p ∈ m, p.1 ≠ 0) : ∀ p ∈ recordItem title m it, p.1 ≠ 0 := by
  unfold recordItem
  rcases it with ⟨_ | bid⟩
  · exact h
  · by_cases h0 : bid = 0
    · simpa [h0] using h
    · intro p hp
      simp only [h0, if_false] at hp
      rcases recordPair_fst m bid title p hp with h1 | ⟨q, hq, hq2⟩
      · rw [h1]; exact h0
      · rw [← hq2]; exact h q hq

theorem foldl_recordItem_keys (title : String) (items : List PageItem) (m : ChanMap)
    (h : ∀ p ∈ m, p.1 ≠ 0) : ∀ p ∈ items.foldl (recordItem title) m, p.1 ≠ 0 := by
  induction items generalizing m with
  | nil => exact h
  | cons it rest ih =>
    intro p hp
    exact ih (recordItem title m it) (recordItem_keys title m it h) p hp

theorem processChannel_keys (m : ChanMap) (ch : ChannelFetch)
    (h : ∀ p ∈ m, p.1 ≠ 0) : ∀ p ∈ processChannel m ch, p.1 ≠ 0 := by
  unfold processChannel
  by_cases hs : strTruthy ch.slug
  · rcases ch.pages with _ | cp
    · simpa [hs] using h
    · simpa [hs] using foldl_recordItem_keys (ch.title.getD "Untitled") (channelItems cp) m h
  · simpa [hs] using h

theorem processBlock_isSome_of_truthy (env : Env) (rb : RawBlock)
    (h : natTruthy rb.id = true) : (processBlock env none rb).isSome := by
  unfold processBlock
  rcases hid : rb.id with _ | bid
  · rw [hid] at h; simp [natTruthy] at h
  · rw [hid] at h
    have h0 : ¬(bid = 0) := by simpa [natTruthy] using h
    simp [h0]

/-- C10 (amended): the aggregation drops every item with an absent or falsy
identifier, so every key of the block-to-channels mapping is truthy; and
provided every successful per-block fetch returns a body carrying a truthy
identifier, every raw block passed on to normalization has a truthy
identifier and, with no date filter configured, the normalizer skips
nothing (the skip-if-no-identifier branch never fires). -/
theorem C10_truthy_ids (channels : List ChannelFetch) (fetch : Nat → Option BlockBody)
    (hfetch : ∀ bid body, fetch bid = some body → natTruthy body.id = true) :
    (∀ p ∈ download_arena_data_map channels, p.1 ≠ 0) ∧
    (∀ rb ∈ fetchBlocks fetch (download_arena_data_map channels), natTruthy rb.id = true) ∧
    (∀ env : Env,
      (process_arena_data env none
        (fetchBlocks fetch (download_arena_data_map channels))).length =
      (fetchBlocks fetch (download_arena_data_map channels)).length) := by
  refine ⟨?_, ?_, ?_⟩
  · unfold download_arena_data_map
    have main : ∀ (cs : List ChannelFetch) (m : ChanMap), (∀ p ∈ m, p.1 ≠ 0) →
        ∀ p ∈ cs.foldl processChannel m, p.1 ≠ 0 := by
      intro cs
      induction cs with
      | nil => intro m h; exact h
      | cons ch rest ih =>
        intro m h p hp
        exact ih (processChannel m ch) (processChannel_keys m ch h) p hp
    exact fun p hp => main channels [] (by simp) p hp
  · intro rb hrb
    unfold fetchBlocks at hrb
    rcases List.mem_filterMap.mp hrb with ⟨p, _, hp2⟩
    rcases hf : fetch p.1 with _ | body
    · rw [hf] at hp2; cases hp2
    · rw [hf] at hp2
      simp only [Option.map_some', Option.some.injEq] at hp2
      have := hfetch p.1 body hf
      rw [← hp2]
      simpa using this
  · intro env
    have hall : ∀ rb ∈ fetchBlocks fetch (download_arena_data_map channels),
        (processBlock env none rb).isSome := by
      intro rb hrb
      apply processBlock_isSome_of_truthy
      exact (by
        intro rb hrb
        unfold fetchBlocks at hrb
        rcases List.mem_filterMap.mp hrb with ⟨p, _, hp2⟩
        rcases hf : fetch p.1 with _ | body
        · rw [hf] at hp2; cases hp2
        · rw [hf] at hp2
          simp only [Option.map_some', Option.some.injEq] at hp2
          have := hfetch p.1 body hf
          rw [← hp2]
          simpa using this : ∀ rb ∈ fetchBlocks fetch (download_arena_data_map channels),
            natTruthy rb.id = true) rb hrb
    unfold process_arena_data
    generalize fetchBlocks fetch (download_arena_data_map channels) = l at hall
    induction l with
    | nil => rfl
    | cons rb rest ih =>
      have h1 := hall rb (List.mem_cons_self _ _)
      rcases hpb : processBlock env none rb with _ | nb
      · rw [hpb] at h1; cases h1
      · simp only [List.filterMap_cons, hpb, List.length_cons]
        rw [ih (fun x hx => hall x (List.mem_cons_of_mem _ hx))]

/-- C10 witness: the amended rule applied to a concrete channel list and an
id-echoing fetch. -/
theorem C10_witness :
    (process_arena_data c10Env none
      (fetchBlocks c10WFetch (download_arena_data_map c10Channels))).length =
    (fetchBlocks c10WFetch (download_arena_data_map c10Channels)).length :=
  (C10_truthy_ids c10Channels c10WFetch
    (fun bid body h => by
      simp only [c10WFetch, Option.some.injEq] at h
      rw [← h]
      decide)).2.2 c10Env

/-- C1 counterexample: a raw block carrying both an image descriptor whose
download succeeds and nonempty text content normalizes to a record in
which the image filename and the text content are BOTH populated: the
normalizer stores content whenever it is truthy, with no regard to the
image. -/
theorem C1_counterexample :
    processBlock c1Env none c1Block = some c1Norm ∧
    ((processBlock c1Env none c1Block).map
      (fun nb => nb.image_file.isSome && nb.content.isSome)) = some true := by
  refine ⟨by decide, by decide⟩

/-- C1 (amended): in every normalized record, the text content field and
the image fields are computed independently of each other: content is the
entity-decoded raw content whenever that is truthy (image or not), and the
image url and image filename are determined by the image descriptor and
the download outcome alone (so a block with both a downloaded image and
truthy content has both fields populated; precedence is applied by the
card emitter, not during normalization). -/
theorem C1_image_content_fields (env : Env) (minD : Option Int) (b : RawBlock)
    (nb : NormalizedBlock) (h : processBlock env minD b = some nb) :
    nb.content = contentField env b.content ∧
    nb.image_file = (imageFields env nb.id b.image).2 ∧
    nb.image_url = (imageFields env nb.id b.image).1 := by
  unfold processBlock at h
  rcases hid : b.id with _ | bid
  · rw [hid] at h; cases h
  · rw [hid] at h
    by_cases h0 : bid = 0
    · simp [h0] at h
    · simp only [h0, if_false] at h
      split at h
      · cases h
      · have hnb := (Option.some.injEq _ _).mp h
        rw [← hnb]
        exact ⟨rfl, rfl, rfl⟩

/-- C1 witness: the field characterization applied to the concrete block
carrying both an image and content. -/
theorem C1_witness :
    c1Norm.content = contentField c1Env c1Block.content ∧
    c1Norm.image_file = (imageFields c1Env c1Norm.id c1Block.image).2 ∧
    c1Norm.image_url = (imageFields c1Env c1Norm.id c1Block.image).1 :=
  C1_image_content_fields c1Env none c1Block c1Norm (by decide)

/-- C5: with a minimum-timestamp filter configured, a block with a truthy
identifier has as effective date the later of its parsed updated and
connected timestamps (each considered only when present, truthy and
parseable), is skipped if and only if it has an effective date earlier
than the minimum, and is always retained when neither timestamp parses. -/
theorem C5_date_filter (env : Env) (m : Int) (b : RawBlock) (bid : Nat)
    (hid : b.id = some bid) (h0 : bid ≠ 0) :
    blockDate env.parse b =
      optMax (parseField env.parse b.updated_at) (parseField env.parse b.connected_at) ∧
    (processBlock env (some m) b = none ↔
      ∃ d, blockDate env.parse b = some d ∧ d < m) ∧
    (blockDate env.parse b = none → processBlock env (some m) b ≠ none) := by
  have h1 : blockDate env.parse b =
      optMax (parseField env.parse b.updated_at) (parseField env.parse b.connected_at) := by
    unfold blockDate optMax
    rcases parseField env.parse b.updated_at with _ | d
    · rcases parseField env.parse b.connected_at with _ | c <;> simp
    · rcases parseField env.parse b.connected_at with _ | c
      · simp
      · simp only []
        by_cases hcd : c > d
        · rw [if_pos hcd]
          simp [max_eq_right (le_of_lt hcd)]
        · rw [if_neg hcd]
          simp [max_eq_left (le_of_not_lt hcd)]
  have h2 : processBlock env (some m) b = none ↔
      ∃ d, blockDate env.parse b = some d ∧ d < m := by
    unfold processBlock
    rw [hid]
    simp only [h0, if_false]
    rcases hbd : blockDate env.parse b with _ | d
    · simp [hbd]
    · by_cases hlt : d < m
      · simp [hbd, hlt]
      · simp [hbd, hlt]
  refine ⟨h1, h2, ?_⟩
  intro hnone hcontra
  rcases h2.mp hcontra with ⟨d, hd, _⟩
  rw [hnone] at hd
  cases hd

/-- C5 witness: the filter rule applied to a concrete block whose two
timestamps parse to 1 and 5 against the minimum 10. -/
theorem C5_witness :
    processBlock c5Env (some 10) c5Block = none ↔
      ∃ d, blockDate c5Env.parse c5Block = some d ∧ d < 10 :=
  (C5_date_filter c5Env 10 c5Block 3 rfl (by decide)).2.1

end ArenaGen
